import Mathlib

/-!
Verification of the bluetrack rule generator.

The program reads a list of network access rules and renders three textual
artifacts: a terraform security-group file, an lxc proxy shell script and an
LXD profile document.  The definitions below are a shallow embedding of the
program (`main.go`, current revision): pure string building for the three
templates, the `filterRules` helper, the lxc filter closure that derives the
formatted port range and the connect endpoint, and the orchestration sequence
of `main`.
-/

/-- One access rule, mirroring the `Rule` struct: raw fields decoded from
YAML (`name, type, from_port, to_port, protocol, cidr_blocks, description,
lxc_forward`) plus the two derived fields the lxc filter closure stashes
(`FormattedPortRange`, `LXCConnect`), which are empty strings after decode. -/
structure Rule where
  name : String
  type : String
  fromPort : Int
  toPort : Int
  protocol : String
  cidrBlocks : List String
  description : String
  lxcForward : Int
  formattedPortRange : String
  lxcConnect : String
deriving DecidableEq

/-- The `Config` struct: the decoded rule list plus the naming parameters
filled from command-line flags. -/
structure GoConfig where
  rules : List Rule
  lxcName : String
  securityGroupName : String
deriving DecidableEq

/-- Model of Go `strings.Split(s, sep)` for a single-character separator:
the list of maximal chunks between occurrences of `sep`.  On any input the
result has at least one element (Go returns `[s]` when `sep` is absent). -/
def goSplit (sep : Char) : List Char → List (List Char)
  | [] => [[]]
  | ch :: rest =>
    if ch == sep then [] :: goSplit sep rest
    else
      match goSplit sep rest with
      | [] => [[ch]]
      | p :: ps => (ch :: p) :: ps

/-- `splitAtSlash`: `strings.Split(s, "/")` then `parts[0]`.  `goSplit` never
returns an empty list, so the `headD` default is never used. -/
def splitAtSlash (s : String) : String :=
  String.mk ((goSplit '/' s.data).headD [])

/-- `filterRules(rules, filter)`.  The Go filter receives `*Rule` and may
mutate the rule in place before deciding, so it is modelled as
`Rule → Rule × Bool`.  The first component of the result is the state of the
argument slice after the pass (the in-place mutations), the second is the
returned filtered slice, which collects the (possibly mutated) kept rules in
order. -/
def filterRules (rs : List Rule) (f : Rule → Rule × Bool) : List Rule × List Rule :=
  match rs with
  | [] => ([], [])
  | r :: rest =>
    let p := f r
    let q := filterRules rest f
    (p.1 :: q.1, if p.2 then p.1 :: q.2 else q.2)

/-- The body of the lxc filter closure for an included rule: derives the
formatted port range (`:%d` when the ports agree, else `:%d-%d`) and the
connect string (`%s:127.0.0.1:` then the override port when `LXCForward`
is nonzero, else the same single-vs-range port text), and stashes both in
the rule. -/
def deriveLxc (r : Rule) : Rule :=
  let portRange :=
    if r.fromPort == r.toPort then ":" ++ toString r.fromPort
    else ":" ++ toString r.fromPort ++ "-" ++ toString r.toPort
  let connectStr0 :=
    if r.fromPort == r.toPort then r.protocol ++ ":127.0.0.1:" ++ toString r.fromPort
    else r.protocol ++ ":127.0.0.1:" ++ toString r.fromPort ++ "-" ++ toString r.toPort
  let connectStr :=
    if r.lxcForward != 0 then r.protocol ++ ":127.0.0.1:" ++ toString r.lxcForward
    else connectStr0
  { r with formattedPortRange := portRange, lxcConnect := connectStr }

/-- The lxc filter closure: rejects `icmp` and `egress` rules before any
derivation; otherwise derives and stashes the two fields and accepts. -/
def lxcFilterStep (r : Rule) : Rule × Bool :=
  if r.protocol == "icmp" || r.type == "egress" then (r, false)
  else (deriveLxc r, true)

/-- `terraformRules`: `filterRules` with the always-true, non-mutating
closure — every rule, for the terraform output. -/
def terraformView (rs : List Rule) : List Rule :=
  (filterRules rs (fun r => (r, true))).2

/-- `lxcRules`: the filtered slice of the lxc pass, consumed by both the
shell-script (lxc) and the profile (lxd) templates. -/
def lxcView (rs : List Rule) : List Rule :=
  (filterRules rs lxcFilterStep).2

/-- The state of `config.Rules` after the lxc pass ran its mutating closure
over the canonical slice. -/
def rulesAfterLxcPass (rs : List Rule) : List Rule :=
  (filterRules rs lxcFilterStep).1

/-- The raw (YAML-decoded) fields of a rule, i.e. everything except the two
derived fields. -/
def rawFields (r : Rule) : String × String × Int × Int × String × List String × String × Int :=
  (r.name, r.type, r.fromPort, r.toPort, r.protocol, r.cidrBlocks, r.description, r.lxcForward)

/-- One rendered block of `terraformTemplate` for one rule (the text one
`range` iteration emits, after the surrounding trim markers). -/
def tfBlock (sg : String) (r : Rule) : String :=
  "\nresource \"aws_security_group_rule\" \"" ++ r.name ++ "\" \x7b\n" ++
  "  type              = \"" ++ r.type ++ "\"\n" ++
  "  from_port         = " ++ toString r.fromPort ++ "\n" ++
  "  to_port           = " ++ toString r.toPort ++ "\n" ++
  "  protocol          = \"" ++ r.protocol ++ "\"\n" ++
  "  security_group_id = data.aws_security_group." ++ sg ++ ".id\n" ++
  "  cidr_blocks       = [\"" ++ String.intercalate "," r.cidrBlocks ++ "\"]\n" ++
  "  description       = \"" ++ r.description ++ "\"\n\x7d\n"

/-- Rendering `terraformTemplate` over a rule list. -/
def renderTerraform (sg : String) (rs : List Rule) : String :=
  String.join (rs.map (tfBlock sg))

/-- `splitAtSlash (index $rule.CIDRBlocks 0)` as both byte templates compute
it: `index` on an empty slice is a template execution error, modelled as
`none`. -/
def cidrOf (r : Rule) : Option String :=
  r.cidrBlocks.head?.map splitAtSlash

/-- Concatenation of per-rule template chunks where any chunk may have hit a
template execution error; an error anywhere fails the whole render, as
`Execute` does. -/
def joinChunks : List (Option String) → Option String
  | [] => some ""
  | o :: rest =>
    match o, joinChunks rest with
    | some s, some t => some (s ++ t)
    | _, _ => none

/-- One rendered line of `lxcTemplate` for one rule. -/
def lxcLine (lxcName : String) (r : Rule) : Option String :=
  (cidrOf r).map (fun a =>
    "\nlxc config device add " ++ lxcName ++ " " ++ r.name ++ " proxy listen=" ++
    r.protocol ++ ":" ++ a ++ r.formattedPortRange ++ " connect=" ++ r.lxcConnect)

/-- Rendering `lxcTemplate`: shebang preamble, one line per rule, trailing
newline. -/
def renderLxc (lxcName : String) (rs : List Rule) : Option String :=
  (joinChunks (rs.map (lxcLine lxcName))).map
    (fun body => "#!/usr/bin/env bash\n" ++ body ++ "\n")

/-- One rendered device entry of `lxdTemplate` for one rule. -/
def lxdEntry (r : Rule) : Option String :=
  (cidrOf r).map (fun a =>
    "\n  " ++ r.name ++ ":\n    connect: " ++ r.lxcConnect ++
    "\n    listen: " ++ r.protocol ++ ":" ++ a ++ r.formattedPortRange ++
    "\n    type: proxy\n")

/-- Rendering `lxdTemplate`: fixed header, one device entry per rule, then
the profile name line. -/
def renderLxd (lxcName : String) (rs : List Rule) : Option String :=
  (joinChunks (rs.map lxdEntry)).map
    (fun body =>
      "\nconfig: \x7b\x7d\ndescription: \"\"\ndevices:" ++ body ++
      "name: " ++ lxcName ++ "\n")

/-- The three texts `main` generates from a decoded config: the terraform
text from `terraformRules`, and the lxc and lxd texts both from `lxcRules`. -/
def mainOutputs (conf : GoConfig) : String × Option String × Option String :=
  let terraformRules := terraformView conf.rules
  let lxcRules := lxcView conf.rules
  (renderTerraform conf.securityGroupName terraformRules,
   renderLxc conf.lxcName lxcRules,
   renderLxd conf.lxcName lxcRules)

/-- Outcomes of the fallible file-system operations in `main`, in program
order: the three `os.Create` calls and the `os.Chmod` on the script file. -/
structure IOOutcomes where
  createTf : Bool
  createLxc : Bool
  chmodOk : Bool
  createLxd : Bool
deriving DecidableEq

/-- The output-writing tail of `main` (after flag parsing, decode and
template parsing, which always succeed for the constant templates): returns
the printed messages and the files fully written.  `os.Chmod` is called
between the second and third `os.Create`; its return value is discarded by
the source, so `oc.chmodOk` is never consulted and no message is printed for
it. -/
def orchestrate (conf : GoConfig) (oc : IOOutcomes) : List String × List (String × String) :=
  if oc.createTf = false then (["Failed to create output file:"], [])
  else if oc.createLxc = false then (["Failed to create output file:"], [])
  else if oc.createLxd = false then (["Failed to create output file:"], [])
  else
    let tf := renderTerraform conf.securityGroupName (terraformView conf.rules)
    match renderLxc conf.lxcName (lxcView conf.rules) with
    | none => (["Failed to execute template:"], [("terraform", tf)])
    | some lxcOut =>
      match renderLxd conf.lxcName (lxcView conf.rules) with
      | none => (["Failed to execute template:"], [("terraform", tf), ("lxc", lxcOut)])
      | some lxdOut =>
        (["Terraform, LXC and LXD configurations generated successfully"],
         [("terraform", tf), ("lxc", lxcOut), ("lxd", lxdOut)])

/-- A concrete decoded rule for witnesses: the spec's ssh scenario. -/
def sampleRule : Rule :=
  { name := "ssh", type := "ingress", fromPort := 22, toPort := 22,
    protocol := "tcp", cidrBlocks := ["10.0.0.0/24"], description := "ssh access",
    lxcForward := 0, formattedPortRange := "", lxcConnect := "" }

/-- A concrete config for witnesses. -/
def sampleConf : GoConfig :=
  { rules := [sampleRule], lxcName := "csls", securityGroupName := "northflier" }

/-- The per-rule data the lxc and lxd templates actually read: rule name,
protocol, extracted CIDR address, stashed formatted port range and stashed
connect endpoint. -/
structure ProxyFields where
  name : String
  protocol : String
  cidrAddr : Option String
  portRange : String
  connect : String
deriving DecidableEq

/-- Projection of a rule to the fields the two proxy-style templates read. -/
def proxyFieldsOf (r : Rule) : ProxyFields :=
  { name := r.name, protocol := r.protocol, cidrAddr := cidrOf r,
    portRange := r.formattedPortRange, connect := r.lxcConnect }

/-- The derived view shared by the shell-script and profile renderers: the
lxc-filtered rule sequence projected to the fields those templates read. -/
def sharedProxyView (rs : List Rule) : List ProxyFields :=
  (lxcView rs).map proxyFieldsOf

/-- The shell-script line as a function of the shared per-rule fields only. -/
def lxcLineF (lxcName : String) (f : ProxyFields) : Option String :=
  f.cidrAddr.map (fun a =>
    "\nlxc config device add " ++ lxcName ++ " " ++ f.name ++ " proxy listen=" ++
    f.protocol ++ ":" ++ a ++ f.portRange ++ " connect=" ++ f.connect)

/-- The shell-script output as a function of the shared view only. -/
def renderLxcF (lxcName : String) (fs : List ProxyFields) : Option String :=
  (joinChunks (fs.map (lxcLineF lxcName))).map
    (fun body => "#!/usr/bin/env bash\n" ++ body ++ "\n")

/-- The profile device entry as a function of the shared per-rule fields
only. -/
def lxdEntryF (f : ProxyFields) : Option String :=
  f.cidrAddr.map (fun a =>
    "\n  " ++ f.name ++ ":\n    connect: " ++ f.connect ++
    "\n    listen: " ++ f.protocol ++ ":" ++ a ++ f.portRange ++
    "\n    type: proxy\n")

/-- The profile output as a function of the shared view only. -/
def renderLxdF (lxcName : String) (fs : List ProxyFields) : Option String :=
  (joinChunks (fs.map lxdEntryF)).map
    (fun body =>
      "\nconfig: \x7b\x7d\ndescription: \"\"\ndevices:" ++ body ++
      "name: " ++ lxcName ++ "\n")

/-! Helper lemmas about the embedded definitions. -/

theorem goSplit_ne_nil (sep : Char) (l : List Char) : goSplit sep l ≠ [] := by
  induction l with
  | nil => simp [goSplit]
  | cons ch rest ih =>
    simp only [goSplit]
    by_cases h : ch == sep
    · simp [h]
    · simp only [h]
      cases hs : goSplit sep rest with
      | nil => simp
      | cons p ps => simp

theorem goSplit_headD (sep : Char) (l : List Char) :
    (goSplit sep l).headD [] = l.takeWhile (fun c => c != sep) := by
  induction l with
  | nil => simp [goSplit]
  | cons ch rest ih =>
    cases hb : ch == sep with
    | true =>
      have hbne : (ch != sep) = false := by simp [bne, hb]
      simp [goSplit, hb, List.takeWhile, hbne]
    | false =>
      have hbne : (ch != sep) = true := by simp [bne, hb]
      cases hs : goSplit sep rest with
      | nil => exact absurd hs (goSplit_ne_nil sep rest)
      | cons p ps =>
        rw [hs] at ih
        simp only [List.headD_cons] at ih
        simp [goSplit, hb, hs, List.takeWhile, hbne, ih]

theorem goSplit_no_sep (sep : Char) (l : List Char) (h : l.contains sep = false) :
    goSplit sep l = [l] := by
  induction l with
  | nil => rfl
  | cons ch rest ih =>
    simp only [List.contains_cons, Bool.or_eq_false_iff] at h
    have hne : (ch == sep) = false := by
      cases hb : ch == sep
      · rfl
      · have hcs : ch = sep := beq_iff_eq.mp hb
        subst hcs
        simp at h
    simp [goSplit, hne, ih h.2]

theorem splitAtSlash_takeWhile (s : String) :
    splitAtSlash s = String.mk (s.data.takeWhile (fun c => c != '/')) := by
  exact congrArg String.mk (goSplit_headD '/' s.data)

theorem deriveLxc_name (r : Rule) : (deriveLxc r).name = r.name := rfl

theorem deriveLxc_type (r : Rule) : (deriveLxc r).type = r.type := rfl

theorem deriveLxc_fromPort (r : Rule) : (deriveLxc r).fromPort = r.fromPort := rfl

theorem deriveLxc_toPort (r : Rule) : (deriveLxc r).toPort = r.toPort := rfl

theorem deriveLxc_protocol (r : Rule) : (deriveLxc r).protocol = r.protocol := rfl

theorem deriveLxc_cidrBlocks (r : Rule) : (deriveLxc r).cidrBlocks = r.cidrBlocks := rfl

theorem deriveLxc_description (r : Rule) : (deriveLxc r).description = r.description := rfl

theorem deriveLxc_lxcForward (r : Rule) : (deriveLxc r).lxcForward = r.lxcForward := rfl

theorem deriveLxc_rawFields (r : Rule) : rawFields (deriveLxc r) = rawFields r := rfl

theorem deriveLxc_portRange (r : Rule) :
    (deriveLxc r).formattedPortRange =
      (if r.fromPort == r.toPort then ":" ++ toString r.fromPort
       else ":" ++ toString r.fromPort ++ "-" ++ toString r.toPort) := rfl

theorem deriveLxc_connect (r : Rule) :
    (deriveLxc r).lxcConnect =
      (if r.lxcForward != 0 then r.protocol ++ ":127.0.0.1:" ++ toString r.lxcForward
       else if r.fromPort == r.toPort then r.protocol ++ ":127.0.0.1:" ++ toString r.fromPort
       else r.protocol ++ ":127.0.0.1:" ++ toString r.fromPort ++ "-" ++ toString r.toPort) := rfl

theorem filterRules_pure_snd (rs : List Rule) (p : Rule → Bool) :
    (filterRules rs (fun r => (r, p r))).2 = rs.filter p := by
  induction rs with
  | nil => rfl
  | cons r rest ih =>
    cases hp : p r with
    | true => simp [filterRules, List.filter_cons, hp, ih]
    | false => simp [filterRules, List.filter_cons, hp, ih]

theorem filterRules_pure_fst (rs : List Rule) (p : Rule → Bool) :
    (filterRules rs (fun r => (r, p r))).1 = rs := by
  induction rs with
  | nil => rfl
  | cons r rest ih => simp [filterRules, ih]

theorem terraformView_eq (rs : List Rule) : terraformView rs = rs := by
  induction rs with
  | nil => rfl
  | cons r rest ih => simp [terraformView, filterRules] at ih ⊢; exact ih

/-- The inclusion test of the lxc filter closure, as a pure predicate. -/
def lxcIncluded (r : Rule) : Bool :=
  !(r.protocol == "icmp" || r.type == "egress")

theorem lxcView_eq (rs : List Rule) :
    lxcView rs = (rs.filter lxcIncluded).map deriveLxc := by
  induction rs with
  | nil => rfl
  | cons r rest ih =>
    simp only [lxcView, filterRules, lxcFilterStep] at ih ⊢
    cases hb : (r.protocol == "icmp" || r.type == "egress") with
    | true => simp [hb, List.filter, lxcIncluded, ih]
    | false => simp [hb, List.filter, lxcIncluded, ih]

theorem rulesAfterLxcPass_eq (rs : List Rule) :
    rulesAfterLxcPass rs =
      rs.map (fun r =>
        if r.protocol == "icmp" || r.type == "egress" then r else deriveLxc r) := by
  induction rs with
  | nil => rfl
  | cons r rest ih =>
    simp only [rulesAfterLxcPass, filterRules, lxcFilterStep] at ih ⊢
    cases hb : (r.protocol == "icmp" || r.type == "egress") with
    | true =>
      have hb' : r.protocol = "icmp" ∨ r.type = "egress" := by simpa using hb
      simp [hb, hb', ih]
    | false =>
      have hb' : ¬(r.protocol = "icmp" ∨ r.type = "egress") := by simpa using hb
      simp [hb, hb', ih]

theorem mem_lxcView {rs : List Rule} {r : Rule} (h : r ∈ lxcView rs) :
    ∃ q, q ∈ rs ∧ lxcIncluded q = true ∧ r = deriveLxc q := by
  rw [lxcView_eq] at h
  obtain ⟨q, hq, hd⟩ := List.mem_map.1 h
  rw [List.mem_filter] at hq
  exact ⟨q, hq.1, hq.2, hd.symm⟩

theorem tfBlock_deriveLxc (sg : String) (r : Rule) :
    tfBlock sg (deriveLxc r) = tfBlock sg r := rfl

theorem lxcLine_factor (n : String) (r : Rule) :
    lxcLine n r = lxcLineF n (proxyFieldsOf r) := rfl

theorem lxdEntry_factor (r : Rule) :
    lxdEntry r = lxdEntryF (proxyFieldsOf r) := rfl

theorem renderLxc_factor (n : String) (rs : List Rule) :
    renderLxc n rs = renderLxcF n (rs.map proxyFieldsOf) := by
  unfold renderLxc renderLxcF
  rw [List.map_map]
  rfl

theorem renderLxd_factor (n : String) (rs : List Rule) :
    renderLxd n rs = renderLxdF n (rs.map proxyFieldsOf) := by
  unfold renderLxd renderLxdF
  rw [List.map_map]
  rfl

theorem map_congr_fun {α β : Type} (l : List α) (f g : α → β) (h : ∀ a, f a = g a) :
    l.map f = l.map g := by
  induction l with
  | nil => rfl
  | cons a l ih => simp [h, ih]

/-- A second concrete rule: the ssh rule with a nonzero forwarded-port
override, for witnesses about the override path. -/
def sampleRuleFwd : Rule :=
  { sampleRule with lxcForward := 8022 }

/-- C1: every rule in the shell-script/profile view carries a formatted port
range equal to ":from" when from_port == to_port and ":from-to" otherwise;
the range is a function of the two ports alone, so in particular changing
the lxc_forward override of any rule never changes its derived port range. -/
theorem lxc_port_range_correct (rs : List Rule) (r : Rule)
    (h : r ∈ lxcView rs) (q : Rule) (k : Int) :
    r.formattedPortRange =
      (if r.fromPort == r.toPort then ":" ++ toString r.fromPort
       else ":" ++ toString r.fromPort ++ "-" ++ toString r.toPort) ∧
    (deriveLxc { q with lxcForward := k }).formattedPortRange =
      (deriveLxc q).formattedPortRange := by
  obtain ⟨q0, hq0, hincl, rfl⟩ := mem_lxcView h
  exact ⟨rfl, rfl⟩

/-- C1 witness: the theorem applied to the singleton ssh rule set and the
override value 8022. -/
theorem lxc_port_range_correct_witness :
    (deriveLxc sampleRule).formattedPortRange =
      (if (deriveLxc sampleRule).fromPort == (deriveLxc sampleRule).toPort then
        ":" ++ toString (deriveLxc sampleRule).fromPort
       else ":" ++ toString (deriveLxc sampleRule).fromPort ++ "-" ++
         toString (deriveLxc sampleRule).toPort) ∧
    (deriveLxc { sampleRule with lxcForward := 8022 }).formattedPortRange =
      (deriveLxc sampleRule).formattedPortRange :=
  lxc_port_range_correct [sampleRule] (deriveLxc sampleRule) (by decide) sampleRule 8022

/-- C2: every rule in the shell-script/profile view carries a connect
endpoint "protocol:127.0.0.1:override" when the override is nonzero, and
otherwise "protocol:127.0.0.1:from" or "protocol:127.0.0.1:from-to"
following the single-vs-range branch. -/
theorem lxc_connect_correct (rs : List Rule) (r : Rule) (h : r ∈ lxcView rs) :
    r.lxcConnect =
      (if r.lxcForward != 0 then r.protocol ++ ":127.0.0.1:" ++ toString r.lxcForward
       else if r.fromPort == r.toPort then r.protocol ++ ":127.0.0.1:" ++ toString r.fromPort
       else r.protocol ++ ":127.0.0.1:" ++ toString r.fromPort ++ "-" ++ toString r.toPort) := by
  obtain ⟨q0, hq0, hincl, rfl⟩ := mem_lxcView h
  rfl

/-- C2 witness: the theorem applied to the ssh rule with override 8022. -/
theorem lxc_connect_correct_witness :
    (deriveLxc sampleRuleFwd).lxcConnect =
      (if (deriveLxc sampleRuleFwd).lxcForward != 0 then
        (deriveLxc sampleRuleFwd).protocol ++ ":127.0.0.1:" ++
          toString (deriveLxc sampleRuleFwd).lxcForward
       else if (deriveLxc sampleRuleFwd).fromPort == (deriveLxc sampleRuleFwd).toPort then
        (deriveLxc sampleRuleFwd).protocol ++ ":127.0.0.1:" ++
          toString (deriveLxc sampleRuleFwd).fromPort
       else (deriveLxc sampleRuleFwd).protocol ++ ":127.0.0.1:" ++
          toString (deriveLxc sampleRuleFwd).fromPort ++ "-" ++
          toString (deriveLxc sampleRuleFwd).toPort) :=
  lxc_connect_correct [sampleRuleFwd] (deriveLxc sampleRuleFwd) (by decide)

/-- C3: a rule of the input appears in the lxc/lxd view exactly when its
protocol is not "icmp" and its type is not "egress", and it always appears
in the terraform view. -/
theorem view_inclusion_iff (rs : List Rule) (r : Rule) (h : r ∈ rs) :
    r ∈ terraformView rs ∧
    (deriveLxc r ∈ lxcView rs ↔ (r.protocol ≠ "icmp" ∧ r.type ≠ "egress")) := by
  constructor
  · rw [terraformView_eq]; exact h
  · rw [lxcView_eq]
    constructor
    · intro hm
      obtain ⟨q, hq, hd⟩ := List.mem_map.1 hm
      rw [List.mem_filter] at hq
      have hp : q.protocol = r.protocol := by
        have hc := congrArg Rule.protocol hd
        rwa [deriveLxc_protocol, deriveLxc_protocol] at hc
      have ht : q.type = r.type := by
        have hc := congrArg Rule.type hd
        rwa [deriveLxc_type, deriveLxc_type] at hc
      have hincl := hq.2
      simp only [lxcIncluded, Bool.not_eq_true', Bool.or_eq_false_iff,
        beq_eq_false_iff_ne] at hincl
      exact ⟨hp ▸ hincl.1, ht ▸ hincl.2⟩
    · rintro ⟨h1, h2⟩
      exact List.mem_map.2 ⟨r, List.mem_filter.2 ⟨h, by simp [lxcIncluded, h1, h2]⟩, rfl⟩

/-- C3 witness: the theorem applied to the singleton ssh rule set. -/
theorem view_inclusion_iff_witness :
    sampleRule ∈ terraformView [sampleRule] ∧
    (deriveLxc sampleRule ∈ lxcView [sampleRule] ↔
      (sampleRule.protocol ≠ "icmp" ∧ sampleRule.type ≠ "egress")) :=
  view_inclusion_iff [sampleRule] sampleRule (by decide)

/-- C4: the terraform view is the whole input rule set, same count and same
order, and the terraform output of main is rendered from exactly that set. -/
theorem terraform_view_identity (conf : GoConfig) :
    terraformView conf.rules = conf.rules ∧
    (terraformView conf.rules).length = conf.rules.length ∧
    (mainOutputs conf).1 = renderTerraform conf.securityGroupName conf.rules := by
  refine ⟨terraformView_eq conf.rules, by rw [terraformView_eq], ?_⟩
  show renderTerraform conf.securityGroupName (terraformView conf.rules) =
    renderTerraform conf.securityGroupName conf.rules
  rw [terraformView_eq]

/-- C5: the lxc (shell-script) and lxd (profile) outputs of main are both
images, under per-format text-shaping functions, of one and the same shared
derived view: the lxc-filtered rule sequence projected to (name, protocol,
CIDR address, formatted port range, connect endpoint). -/
theorem proxy_renderers_share_view (conf : GoConfig) :
    (mainOutputs conf).2.1 = renderLxcF conf.lxcName (sharedProxyView conf.rules) ∧
    (mainOutputs conf).2.2 = renderLxdF conf.lxcName (sharedProxyView conf.rules) := by
  constructor
  · show renderLxc conf.lxcName (lxcView conf.rules) =
      renderLxcF conf.lxcName (sharedProxyView conf.rules)
    rw [renderLxc_factor]
    rfl
  · show renderLxd conf.lxcName (lxcView conf.rules) =
      renderLxdF conf.lxcName (sharedProxyView conf.rules)
    rw [renderLxd_factor]
    rfl

/-- C6: the lxc pass mutates no raw field of the canonical rule list, and
the terraform output is the same whether rendered from the pre-pass rules or
from the rules the pass mutated in place. -/
theorem lxc_pass_frame (sg : String) (rs : List Rule) :
    (rulesAfterLxcPass rs).map rawFields = rs.map rawFields ∧
    renderTerraform sg (rulesAfterLxcPass rs) = renderTerraform sg rs := by
  constructor
  · rw [rulesAfterLxcPass_eq, List.map_map]
    refine map_congr_fun rs _ _ (fun r => ?_)
    show rawFields (if r.protocol == "icmp" || r.type == "egress" then r else deriveLxc r) =
      rawFields r
    split
    · rfl
    · exact deriveLxc_rawFields r
  · rw [rulesAfterLxcPass_eq]
    unfold renderTerraform
    rw [List.map_map]
    refine congrArg String.join (map_congr_fun rs _ _ (fun r => ?_))
    show tfBlock sg (if r.protocol == "icmp" || r.type == "egress" then r else deriveLxc r) =
      tfBlock sg r
    split
    · rfl
    · exact tfBlock_deriveLxc sg r

/-- C7: for a rule whose CIDR list is nonempty, the extraction used by the
lxc and lxd renderers returns the part of the first CIDR block before the
first "/"; on "10.0.0.0/24" it yields "10.0.0.0". -/
theorem cidr_extraction_correct (r : Rule) (c : String) (cs : List String)
    (h : r.cidrBlocks = c :: cs) :
    cidrOf r = some (splitAtSlash c) ∧
    splitAtSlash c = String.mk (c.data.takeWhile (fun ch => ch != '/')) ∧
    splitAtSlash "10.0.0.0/24" = "10.0.0.0" := by
  refine ⟨?_, splitAtSlash_takeWhile c, by decide⟩
  simp [cidrOf, h]

/-- C7 witness: the theorem applied to the ssh rule and its CIDR block. -/
theorem cidr_extraction_correct_witness :
    cidrOf sampleRule = some (splitAtSlash "10.0.0.0/24") ∧
    splitAtSlash "10.0.0.0/24" =
      String.mk (("10.0.0.0/24" : String).data.takeWhile (fun ch => ch != '/')) ∧
    splitAtSlash "10.0.0.0/24" = "10.0.0.0" :=
  cidr_extraction_correct sampleRule "10.0.0.0/24" [] rfl

/-- C8: the chmod outcome is invisible in the current code: `main` discards
the `os.Chmod` error, so a failing chmod produces exactly the same printed
messages and written files as a succeeding one — nothing is logged, and
processing continues through the lxd profile.  Shown generally and on the
concrete ssh config, whose run still ends in the success message. -/
theorem chmod_failure_silent :
    (∀ (conf : GoConfig) (oc : IOOutcomes),
        orchestrate conf oc = orchestrate conf { oc with chmodOk := true }) ∧
    (orchestrate sampleConf
        { createTf := true, createLxc := true, chmodOk := false, createLxd := true }).1 =
      ["Terraform, LXC and LXD configurations generated successfully"] := by
  constructor
  · intro conf oc
    cases oc
    rfl
  · rfl

/-- C9: `splitAtSlash` is total: the split always yields at least one part,
and on a string without "/" it returns the input unchanged. -/
theorem splitAtSlash_total (s : String) :
    goSplit '/' s.data ≠ [] ∧
    (s.data.contains '/' = false → splitAtSlash s = s) := by
  refine ⟨goSplit_ne_nil '/' s.data, fun h => ?_⟩
  obtain ⟨d⟩ := s
  show String.mk ((goSplit '/' d).headD []) = String.mk d
  rw [goSplit_no_sep '/' d h]
  rfl

/-- C9 witness: the theorem applied to a CIDR block written without a
prefix length. -/
theorem splitAtSlash_total_witness :
    goSplit '/' ("10.0.0.0" : String).data ≠ [] ∧
    splitAtSlash "10.0.0.0" = "10.0.0.0" :=
  ⟨(splitAtSlash_total "10.0.0.0").1, (splitAtSlash_total "10.0.0.0").2 (by decide)⟩

/-- C10: for every rule list and pure predicate, `filterRules` returns the
order-preserving subsequence of exactly the rules satisfying the predicate;
consequently the lxc/lxd view lists its rules (by name) as a subsequence of
the input order. -/
theorem filterRules_filter_spec (rs : List Rule) (p : Rule → Bool) :
    (filterRules rs (fun r => (r, p r))).2 = rs.filter p ∧
    (∀ r : Rule, r ∈ (filterRules rs (fun r => (r, p r))).2 ↔ (r ∈ rs ∧ p r = true)) ∧
    List.Sublist ((filterRules rs (fun r => (r, p r))).2) rs ∧
    List.Sublist ((lxcView rs).map Rule.name) (rs.map Rule.name) := by
  refine ⟨filterRules_pure_snd rs p, ?_, ?_, ?_⟩
  · intro r
    rw [filterRules_pure_snd]
    exact List.mem_filter
  · rw [filterRules_pure_snd]
    exact List.filter_sublist rs
  · rw [lxcView_eq, List.map_map]
    have h1 : (rs.filter lxcIncluded).map (Rule.name ∘ deriveLxc) =
        (rs.filter lxcIncluded).map Rule.name :=
      map_congr_fun _ _ _ (fun r => deriveLxc_name r)
    rw [h1]
    exact List.Sublist.map Rule.name (List.filter_sublist rs)
